import Mathlib

/-!
Shallow embedding of `src/main.rs` of lights-for-omen-sequencer: a tool that
encodes a key → 24-bit-color override table into ten fixed-size USB HID
reports and writes them to a keyboard.  Rust `u8`/`u32` values are modelled
as `Nat` with explicit `% 256` truncation where the code masks; `HashMap`s
are modelled as lookup functions (`String → Option Nat`), with `insert`
being pointwise function update, which is exactly the map semantics the
code relies on.  Fallible operations are modelled with `Option`/`Except`.
-/

set_option maxRecDepth 100000

namespace LFOS

/-- Value of one hex digit character, as used by `u8::from_str_radix(_, 16)`
inside `decode_hex`.  `decode_hex` is applied only to the static hex
templates below, which consist solely of `[0-9a-f]` digits, so the junk
value for a non-digit is never produced. -/
def hexVal (c : Char) : Nat :=
  if '0' ≤ c ∧ c ≤ '9' then c.toNat - '0'.toNat
  else if 'a' ≤ c ∧ c ≤ 'f' then c.toNat - 'a'.toNat + 10
  else if 'A' ≤ c ∧ c ≤ 'F' then c.toNat - 'A'.toNat + 10
  else 0

/-- Decode consecutive pairs of hex characters into bytes.  This is the
loop `(0..s.len()).step_by(2).map(|i| u8::from_str_radix(&s[i..i+2], 16).unwrap())`
of `decode_hex`; every string it is applied to has even length. -/
def decodeHexPairs : List Char → List Nat
  | c1 :: c2 :: rest => (hexVal c1 * 16 + hexVal c2) :: decodeHexPairs rest
  | _ => []

/-- Rust `decode_hex`: a hex string to a byte vector. -/
def decode_hex (s : String) : List Nat :=
  decodeHexPairs s.data

/-- The static initiation report template (`HEADER0` in the source). -/
def HEADER0 : String := "04000200fcea00000000000000000000000000000000000000000000000000000000000000000000000000000000000000000000000000000000000000000000"

/-- Header template of line 0 (`HEADER1`). -/
def HEADER1 : String := "05003c00"

/-- Header template of line 1 (`HEADER2`). -/
def HEADER2 : String := "05013c00"

/-- Header template of line 2 (`HEADER3`). -/
def HEADER3 : String := "05021800"

/-- Header template of line 3 (`HEADER4`). -/
def HEADER4 : String := "06003c00"

/-- Header template of line 4 (`HEADER5`). -/
def HEADER5 : String := "06013c00"

/-- Header template of line 5 (`HEADER6`). -/
def HEADER6 : String := "06021800"

/-- Header template of line 6 (`HEADER7`). -/
def HEADER7 : String := "07003c00"

/-- Header template of line 7 (`HEADER8`). -/
def HEADER8 : String := "07013c00"

/-- Header template of line 8 (`HEADER9`). -/
def HEADER9 : String := "07021800"

/-- Body mask template shared by lines 0, 3 and 6 (`BODY0`). -/
def BODY0 : String := "ffffffffffffffffffffffffffff00ffffffffff00ffff00ffffffffff00ffffffffffffffffffffffffffffff0000ffffffffffff00ffff00ffff00"

/-- Body mask template shared by lines 1, 4 and 7 (`BODY1`). -/
def BODY1 : String := "ffff0000ffffffffffffffff00ffff00ffff0000ffffffffff00ffffffffff00ffff0000ffffffffff00ffffff00ff00ffff0000ffffffffffffffff"

/-- Body mask template shared by lines 2, 5 and 8 (`BODY2`). -/
def BODY2 : String := "ffffff00ffff0000ffffffffffffffffffff0000ffff0000000000000000000000000000000000000000000000000000000000000000000000000000"

/-- Rust `struct Line`: header template, body mask template and channel
bit-offset of one of the nine per-line reports. -/
structure Line where
  header : String
  body : String
  ofset : Nat

/-- The `lines` vector built at the top of `build_table`, in its declared
order. -/
def lines : List Line := [
  ⟨HEADER1, BODY0, 16⟩,
  ⟨HEADER2, BODY1, 16⟩,
  ⟨HEADER3, BODY2, 16⟩,
  ⟨HEADER4, BODY0, 8⟩,
  ⟨HEADER5, BODY1, 8⟩,
  ⟨HEADER6, BODY2, 8⟩,
  ⟨HEADER7, BODY0, 0⟩,
  ⟨HEADER8, BODY1, 0⟩,
  ⟨HEADER9, BODY2, 0⟩]

/-- Fallback `Line` used with `List.getD`; `build_table` only indexes
`lines` at `0..8`, so it is never read. -/
def defaultLine : Line := ⟨"", "", 0⟩

/-- Rust `color_component`: `(color >> ofset & 0xff) as u8`.  The `& 0xff`
is written as `% 256`. -/
def color_component (color : Nat) (ofset : Nat) : Nat :=
  (color >>> ofset) % 256

/-- Rust `get_keys`: the fixed key layout, position-indexed, with the
sentinel entries kept verbatim. -/
def get_keys : List String := [
    "esc", "\\", "tab", "capslock", "lshift", "lcontrol", "f12", "«", "f9", "9", "o", "l",
    ",", "<", "????", "leftarrow", "f1", "1", "q", "a", "????", "windows", "prtscrn",
    "????", "f10", "0", "p", "ç", ".", "????", "enter", "downarrow", "f2", "2", "w", "s",
    "z", "lalt", "sclock", "del", "f11", "\x27", "+", "º", "-", "????", "????",
    "rightarrow", "f3", "3", "e", "d", "x", "????", "pause", "delete", "????", "numpad7",
    "p1", "????", "numlock", "numpad6", "????", "????", "f4", "4", "r", "f", "c", "????",
    "insert", "end", "????", "numpad8", "p2", "????", "numpad/", "numpad1", "????",
    "????", "f5", "5", "t", "g", "v", "????", "home", "pgdown", "stop", "numpad9", "p3",
    "????", "numpad*", "numpad2", "????", "????", "f6", "6", "y", "h", "b", "????",
    "pgup", "rshift", "playlast", "????", "p4", "????", "numpad-", "numpad3", "????",
    "????", "f7", "7", "u", "j", "n", "altgr", "´", "rctrl", "play", "numpad4", "p5",
    "????", "numpad+", "numpad0", "????", "????", "f8", "8", "i", "k", "m", "fn", "~",
    "uparrow", "playnext", "numpad5", "????", "????", "numpadenter", "numpad."]

/-- Rust `get_key_groups`: the fixed group table, as the association list
of the `add_group` calls.  Group names are pairwise distinct, so the list
lookup below agrees with the `HashMap`. -/
def get_key_groups : List (String × List String) := [
  ("pkeys", ["p1", "p2", "p3", "p4", "p5"]),
  ("fkeys", ["f1", "f2", "f3", "f4", "f5", "f6", "f7", "f8", "f9", "f10", "f11", "f12"]),
  ("media", ["play", "stop", "playlast", "playnext"]),
  ("system", ["prtscrn", "sclock", "pause", "insert", "home", "insert", "pgup",
              "delete", "end", "pgdown"]),
  ("arrows", ["leftarrow", "rightarrow", "uparrow", "downarrow"]),
  ("numpad", ["numlock", "numpad/", "numpad*", "numpad-", "numpad7", "numpad8",
              "numpad9", "numpad+", "numpad4", "numpad5", "numpad6", "numpad1",
              "numpad2", "numpad3", "numpad0", "numpad.", "numpadenter"])]

/-- Lookup in the group table: `lfos.groups.get(name)` (and, for `some`,
`contains_key`). -/
def groupsGet (name : String) : Option (List String) :=
  (get_key_groups.find? (fun p => p.1 == name)).map (fun p => p.2)

/-- The override table `HashMap<String, u32>`, modelled as a lookup
function. -/
abbrev Table : Type := String → Option Nat

/-- HashMap `insert`: pointwise function update. -/
def Table.insert (t : Table) (k : String) (v : Nat) : Table :=
  fun x => if x = k then some v else t x

/-- `HashMap::new()`: the empty table. -/
def Table.empty : Table := fun _ => none

/-- Value of one hex digit for `u32::from_str_radix(_, 16)`, `none` on a
non-digit character. -/
def hexDigitVal (c : Char) : Option Nat :=
  if '0' ≤ c ∧ c ≤ '9' then some (c.toNat - '0'.toNat)
  else if 'a' ≤ c ∧ c ≤ 'f' then some (c.toNat - 'a'.toNat + 10)
  else if 'A' ≤ c ∧ c ≤ 'F' then some (c.toNat - 'A'.toNat + 10)
  else none

/-- The digit-accumulation loop of `u32::from_str_radix(_, 16)`:
`checked_mul`/`checked_add` keep the accumulator inside `u32`, failing on
overflow or on an invalid digit. -/
def accumHex : List Char → Nat → Option Nat
  | [], acc => some acc
  | c :: rest, acc =>
    match hexDigitVal c with
    | some d => if acc * 16 + d < 4294967296 then accumHex rest (acc * 16 + d) else none
    | none => none

/-- Rust `u32::from_str_radix(s, 16)`: an optional leading `+` (alone it is
an error), then at least one hex digit, no overflow past `u32::MAX`.  A
leading `-` is not a hex digit for an unsigned target, so it fails in
`accumHex`. -/
def from_str_radix_16_u32 (s : String) : Option Nat :=
  match s.data with
  | [] => none
  | ['+'] => none
  | '+' :: rest => accumHex rest 0
  | cs => accumHex cs 0

/-- Application of one parsed (name, color) pair to the override table:
group names expand to an insert per member, anything else is a single-key
insert (lines 422–433 of `try_parse_cmd`). -/
def applyPair (overrides : Table) (key : String) (value : Nat) : Table :=
  match groupsGet key with
  | some values => values.foldl (fun acc v => acc.insert v value) overrides
  | none => overrides.insert key value

/-- The pair loop `for i in (1..args.len()).step_by(2)` of `try_parse_cmd`,
running on `args[1..]`: parse the color token with `?`-propagation, then
apply the pair.  The error value carries the offending token. -/
def parsePairs : List String → Table → Except String Table
  | [], acc => Except.ok acc
  | [_], acc => Except.ok acc
  | key :: value :: rest, acc =>
    match from_str_radix_16_u32 value with
    | some v => parsePairs rest (applyPair acc key v)
    | none => Except.error value

/-- Outcome of `try_parse_cmd`: the `--help`/`--version` process exits, the
error return, or the parsed override table. -/
inductive CmdResult where
  | usage
  | version
  | err (msg : String)
  | ok (overrides : Table)

/-- Rust `try_parse_cmd` on the full argument vector (`args[0]` is the
program name): first the flag scan (first `--help`/`--version` argument
exits), then the even/odd argument-count check, then the pair loop. -/
def try_parse_cmd (args : List String) : CmdResult :=
  match args.find? (fun a => a == "--help" || a == "--version") with
  | some a => if a == "--help" then CmdResult.usage else CmdResult.version
  | none =>
    if args.length % 2 ≠ 1 then
      CmdResult.err "Each key or group must be given a color"
    else
      match parsePairs (args.drop 1) Table.empty with
      | Except.ok t => CmdResult.ok t
      | Except.error e => CmdResult.err e

/-- Whether the result is the error return. -/
def CmdResult.isErr : CmdResult → Bool
  | CmdResult.err _ => true
  | _ => false

/-- Whether the result is a parsed override table. -/
def CmdResult.isOk : CmdResult → Bool
  | CmdResult.ok _ => true
  | _ => false

/-- Lookup of one key in the table of an `ok` result. -/
def CmdResult.tableAt : CmdResult → String → Option Nat
  | CmdResult.ok t, k => t k
  | _, _ => none

/-- Color of layout position `j` inside `build_table` (lines 498–501):
the key's explicit override, else the override of the reserved name
`all`, else white.  `lfos.keys[j]` is written with a `getD` fallback; the
index is proved in bounds for every reachable `j`. -/
def resolveColor (overrides : Table) (j : Nat) : Nat :=
  match overrides (get_keys.getD j "") with
  | some value => value
  | none => (overrides "all").getD 0xffffff

/-- Body bytes of line `l` (the inner loop of `build_table`): one byte per
hex-character pair of the body mask; a pair starting with the character
`0` emits the zero byte, anything else emits the selected channel of the
resolved color of layout position `(l % 3) * 60 + i`.  The Rust loop
`for i in (0..body.len()).step_by(2)` makes `⌈len/2⌉` iterations over the
hex-character indices `2 * i`; it is written here as a map over the byte
indices `i`. -/
def lineBody (overrides : Table) (l : Nat) : List Nat :=
  (List.range (((lines.getD l defaultLine).body.length + 1) / 2)).map (fun i =>
    if (lines.getD l defaultLine).body.data.getD (2 * i) 'x' = '0' then 0
    else color_component (resolveColor overrides ((l % 3) * 60 + i))
      (lines.getD l defaultLine).ofset)

/-- Rust `build_table`: the decoded initiation template followed by the
nine line reports, each a decoded header followed by its body bytes. -/
def build_table (overrides : Table) : List (List Nat) :=
  decode_hex HEADER0 ::
    (List.range lines.length).map (fun l =>
      decode_hex (lines.getD l defaultLine).header ++ lineBody overrides l)

/-- Endpoint direction (`rusb::Direction`). -/
inductive Direction where
  | dirIn
  | dirOut
  deriving DecidableEq

/-- Transfer type (`rusb::TransferType`). -/
inductive TransferType where
  | control
  | isochronous
  | bulk
  | interrupt
  deriving DecidableEq

/-- One endpoint descriptor of the descriptor tree. -/
structure EndpointDesc where
  direction : Direction
  transfer_type : TransferType
  address : Nat
  deriving DecidableEq

/-- One interface descriptor (alternate setting) with its endpoint
descriptors. -/
structure InterfaceDesc where
  interface_number : Nat
  setting_number : Nat
  endpoint_descriptors : List EndpointDesc
  deriving DecidableEq

/-- One interface with its alternate-setting descriptors. -/
structure Interface where
  descriptors : List InterfaceDesc
  deriving DecidableEq

/-- One configuration descriptor with its interfaces. -/
structure ConfigDesc where
  number : Nat
  interfaces : List Interface
  deriving DecidableEq

/-- A USB device as the resolver and locator observe it:
`device_descriptor` is the (vendor, product) pair, `none` when the
descriptor read fails; `opens` is whether `open()` succeeds; the
`config_descriptors` entry for index `n` is `none` when
`config_descriptor(n)` fails. -/
structure UsbDevice where
  device_descriptor : Option (Nat × Nat)
  opens : Bool
  config_descriptors : List (Option ConfigDesc)
  deriving DecidableEq

/-- Rust `struct Endpoint`. -/
structure Endpoint where
  config : Nat
  iface : Nat
  setting : Nat
  address : Nat
  deriving DecidableEq

/-- First non-`none` value of `f` over a list: the shape of the nested
first-match-returns loops in the source. -/
def firstSome {α β : Type} (f : α → Option β) : List α → Option β
  | [] => none
  | a :: rest =>
    match f a with
    | some b => some b
    | none => firstSome f rest

/-- Rust `find_writable_endpoint`: walk every configuration (a failing
`config_descriptor(n)` read is skipped), every interface, every alternate
setting and every endpoint descriptor, returning the first OUT endpoint
of the requested transfer type. -/
def find_writable_endpoint (dev : UsbDevice) (transfer_type : TransferType) :
    Option Endpoint :=
  firstSome (fun cfg =>
    match cfg with
    | none => none
    | some config_desc =>
      firstSome (fun iface =>
        firstSome (fun interface_desc =>
          match interface_desc.endpoint_descriptors.find? (fun e =>
              decide (e.direction = Direction.dirOut ∧
                e.transfer_type = transfer_type)) with
          | some endpoint_desc =>
            some ⟨config_desc.number, interface_desc.interface_number,
                  interface_desc.setting_number, endpoint_desc.address⟩
          | none => none)
          iface.descriptors)
        config_desc.interfaces)
    dev.config_descriptors

/-- The device loop of `open_device`: a device whose descriptor read fails
is skipped; the first device matching (vid, pid) that opens is returned;
a matching device that fails to open is skipped like the rest. -/
def open_device_scan : List UsbDevice → Nat → Nat → Option UsbDevice
  | [], _, _ => none
  | device :: rest, vid, pid =>
    match device.device_descriptor with
    | none => open_device_scan rest vid pid
    | some (v, p) =>
      if v = vid ∧ p = pid then
        if device.opens then some device else open_device_scan rest vid pid
      else open_device_scan rest vid pid

/-- Rust `open_device`: `context.devices()` failing (`devices = none`)
yields `none`; otherwise the scan above. -/
def open_device (devices : Option (List UsbDevice)) (vid pid : Nat) :
    Option UsbDevice :=
  match devices with
  | none => none
  | some ds => open_device_scan ds vid pid

/-- The report loop of `main`: per report, resolve the endpoint afresh and
write.  `find_writable_endpoint(..).unwrap()` panics the process when the
endpoint is missing; the panic is modelled as the `none` result, a `some`
result lists the (endpoint, report) writes of the completed run. -/
def send_reports (dev : UsbDevice) : List (List Nat) →
    Option (List (Endpoint × List Nat))
  | [] => some []
  | line :: rest =>
    match find_writable_endpoint dev TransferType.interrupt with
    | none => none
    | some ep =>
      match send_reports dev rest with
      | some sent => some ((ep, line) :: sent)
      | none => none

/-- The device branch of `main`: a found device gets the report loop, a
missing device is a silent no-op (the `None => ()` arm). -/
def lfos_run (devices : Option (List UsbDevice)) (table : List (List Nat)) :
    Option (List (Endpoint × List Nat)) :=
  match open_device devices 0x03f0 0x1f41 with
  | some dev => send_reports dev table
  | none => some []

/-- Whether the descriptor tree of a device holds any OUT endpoint of the
given transfer type — the search condition of `find_writable_endpoint`,
used to state what an exhausted search means. -/
def hasWritableOut (dev : UsbDevice) (tt : TransferType) : Bool :=
  dev.config_descriptors.any (fun cfg =>
    match cfg with
    | none => false
    | some config_desc => config_desc.interfaces.any (fun iface =>
        iface.descriptors.any (fun interface_desc =>
          interface_desc.endpoint_descriptors.any (fun e =>
            decide (e.direction = Direction.dirOut ∧ e.transfer_type = tt)))))

/-- Whether some pair of the token list (alternating name/color tokens)
has a color token that `u32::from_str_radix(_, 16)` rejects. -/
def hasBadColor : List String → Bool
  | _ :: value :: rest => (from_str_radix_16_u32 value).isNone || hasBadColor rest
  | _ => false

/-- Whether `parsePairs` succeeded. -/
def parseOk : Except String Table → Bool
  | Except.ok _ => true
  | Except.error _ => false

/-- The key set a (name, color) pair is applied to: the group members when
the name is a group, else the name itself. -/
def expansion (name : String) : List String :=
  match groupsGet name with
  | some values => values
  | none => [name]

/-- Recombination of the three channel bytes that the encoded reports
carry for layout position `p`: the byte of the offset-16 line of `p`'s
third, shifted back up, plus the offset-8 byte, plus the offset-0 byte.
Line `l` is report `1 + l`, and every line report starts with 4 header
bytes, so body byte `p % 60` sits at report byte `4 + p % 60`. -/
def extract_color (o : Table) (p : Nat) : Nat :=
  ((build_table o).getD (1 + p / 60) []).getD (4 + p % 60) 0 * 65536 +
    ((build_table o).getD (4 + p / 60) []).getD (4 + p % 60) 0 * 256 +
    ((build_table o).getD (7 + p / 60) []).getD (4 + p % 60) 0

/-- A device exposing one configuration with a single interface whose only
endpoint is an IN interrupt endpoint: a descriptor tree with no OUT
endpoint of any type. -/
def noOutDev : UsbDevice :=
  ⟨some (0x03f0, 0x1f41), true,
    [some ⟨1, [⟨[⟨0, 0, [⟨Direction.dirIn, TransferType.interrupt, 129⟩]⟩]⟩]⟩]⟩

/-- A device whose descriptor read fails. -/
def descFailDev : UsbDevice := ⟨none, true, []⟩

/-- An override table coloring the key `esc` (layout position 0). -/
def escOverride : Table := Table.insert Table.empty "esc" 11259375

/- ================= helper lemmas ================= -/

/-- Indexing a map over `List.range`. -/
lemma getD_range_map {α : Type} (f : Nat → α) (n i : Nat) (d : α) (h : i < n) :
    ((List.range n).map f).getD i d = f i := by
  rw [List.getD_eq_getElem?_getD, List.getElem?_map, List.getElem?_range h]
  rfl

/-- Every line's decoded header is 4 bytes. -/
lemma header_length : ∀ l, l < 9 →
    (decode_hex (lines.getD l defaultLine).header).length = 4 := by decide

/-- Every line's body mask holds 60 bytes. -/
lemma bodyCount : ∀ l, l < 9 →
    ((lines.getD l defaultLine).body.length + 1) / 2 = 60 := by decide

/-- Byte `4 + i` of line report `l` (report index `1 + l`) is the masked
channel byte of layout position `(l % 3) * 60 + i`. -/
lemma line_byte_eq (o : Table) (l i : Nat) (hl : l < 9) (hi : i < 60) :
    ((build_table o).getD (1 + l) []).getD (4 + i) 0 =
      (if (lines.getD l defaultLine).body.data.getD (2 * i) 'x' = '0' then 0
       else color_component (resolveColor o ((l % 3) * 60 + i))
         (lines.getD l defaultLine).ofset) := by
  have h4 : (decode_hex (lines.getD l defaultLine).header).length ≤ 4 + i := by
    rw [header_length l hl]; omega
  unfold build_table
  rw [show (1 + l) = l + 1 by omega, List.getD_cons_succ,
    getD_range_map _ _ _ _ (show l < lines.length from hl),
    List.getD_append_right _ _ _ _ h4, header_length l hl,
    show 4 + i - 4 = i by omega]
  unfold lineBody
  rw [getD_range_map _ _ _ _ (show i < ((lines.getD l defaultLine).body.length + 1) / 2
    by rw [bodyCount l hl]; exact hi)]

/-- Channel offsets and shared bodies of the three lines of one third. -/
lemma line_structure : ∀ t, t < 3 →
    (lines.getD t defaultLine).body = (lines.getD (t + 3) defaultLine).body ∧
    (lines.getD t defaultLine).body = (lines.getD (t + 6) defaultLine).body ∧
    (lines.getD t defaultLine).ofset = 16 ∧
    (lines.getD (t + 3) defaultLine).ofset = 8 ∧
    (lines.getD (t + 6) defaultLine).ofset = 0 := by decide

/-- Every non-sentinel layout position has a non-zero mask byte in the
body template of its third. -/
lemma sentinel_mask : ∀ p, p < 142 → get_keys.getD p "" ≠ "????" →
    (lines.getD (p / 60) defaultLine).body.data.getD (2 * (p % 60)) 'x' ≠ '0' := by decide

/-- Lookup after folding a same-value insert over a member list. -/
lemma foldl_insert_lookup (v : Nat) (ms : List String) (t : Table) (x : String) :
    (ms.foldl (fun acc m => acc.insert m v) t) x = if x ∈ ms then some v else t x := by
  induction ms generalizing t with
  | nil => simp
  | cons m rest ih =>
    rw [List.foldl_cons, ih]
    by_cases hx : x ∈ rest
    · simp [hx]
    · by_cases hxm : x = m
      · simp [hx, hxm, Table.insert]
      · simp [hx, hxm, Table.insert]

/-- `applyPair` is the fold of a single-value insert over the pair's
expanded key set. -/
lemma applyPair_eq_fold (t : Table) (name : String) (v : Nat) :
    applyPair t name v = (expansion name).foldl (fun acc m => acc.insert m v) t := by
  unfold applyPair expansion
  cases groupsGet name with
  | some values => rfl
  | none => rfl

/-- A `firstSome` scan over a list on which `f` never fires yields
nothing. -/
lemma firstSome_eq_none {α β : Type} (f : α → Option β) (l : List α)
    (h : ∀ a ∈ l, f a = none) : firstSome f l = none := by
  induction l with
  | nil => rfl
  | cons a rest ih =>
    simp only [firstSome]
    rw [h a (List.mem_cons_self a rest)]
    exact ih fun x hx => h x (List.mem_cons_of_mem a hx)

/-- `parsePairs` succeeds exactly when every pair's color token parses. -/
lemma parsePairs_ok : ∀ (l : List String) (t : Table),
    parseOk (parsePairs l t) = !hasBadColor l
  | [], _ => rfl
  | [_], _ => rfl
  | key :: value :: rest, t => by
    unfold parsePairs hasBadColor
    cases h : from_str_radix_16_u32 value with
    | some v =>
      simp only [h, Option.isNone_some, Bool.false_or]
      exact parsePairs_ok rest (applyPair t key v)
    | none => simp [h, parseOk]

/- ================= claim theorems ================= -/

/-- C1: for every override table, `build_table` returns exactly 10
reports, and the first report is bit-identical to the fixed initiation
template decoded from its static hex string, independently of the
override table. -/
theorem c1_ten_reports_fixed_first (o : Table) :
    (build_table o).length = 10 ∧
    (build_table o).head? = some (decode_hex HEADER0) :=
  ⟨rfl, rfl⟩

/-- C2: for every line index `l < 9` and body byte position `i < 60`, the
line's channel offset is 16, 8 or 0 by thirds of the line order, and the
emitted byte of line report `l` at body position `i` (report byte
`4 + i`) is the zero byte when the mask byte starts with the character
`0`, and otherwise `(c >> offset) & 0xff` where `c` is the override color
of the key at layout position `(l % 3) * 60 + i`, falling back to the
color of the reserved name `all`, and to white `0xffffff` when `all` is
absent. -/
theorem c2_masked_channel_byte (o : Table) (l i : Nat) (hl : l < 9) (hi : i < 60) :
    (lines.getD l defaultLine).ofset =
      (if l < 3 then 16 else if l < 6 then 8 else 0) ∧
    ((build_table o).getD (1 + l) []).getD (4 + i) 0 =
      (if (lines.getD l defaultLine).body.data.getD (2 * i) 'x' = '0' then 0
       else color_component
         (match o (get_keys.getD ((l % 3) * 60 + i) "") with
          | some value => value
          | none => (o "all").getD 0xffffff)
         (lines.getD l defaultLine).ofset) := by
  constructor
  · revert hl
    revert l
    decide
  · rw [line_byte_eq o l i hl hi]
    rfl

/-- Witness for C2 at the all-default table, line 0, byte 0: the key `esc`
has no override, so the emitted byte is the red channel of white. -/
theorem c2_witness : ((build_table Table.empty).getD 1 []).getD 4 0 = 255 := by
  have h := (c2_masked_channel_byte Table.empty 0 0 (by decide) (by decide)).2
  norm_num at h
  exact h.trans (by decide)

/-- C3 counterexample: the key layout does not have 147 slots. -/
theorem c3_counterexample : ¬ (get_keys.length = 147) := by decide

/-- C3 amended: the key layout is an ordered sequence of exactly 142
slots, the three line groups encode the thirds 0–59, 60–119 and 120–141,
and every position within a third maps 1:1 to a fixed byte offset of its
line's body: position `p` of third `l % 3` is encoded at body byte
`p - (l % 3) * 60` of line `l`, injectively. -/
theorem c3_layout_thirds :
    get_keys.length = 142 ∧
    ∀ (o : Table) (l : Nat), l < 9 →
      ∀ p, (l % 3) * 60 ≤ p → p < min ((l % 3) * 60 + 60) 142 →
        p - (l % 3) * 60 < 60 ∧
        (∀ q, (l % 3) * 60 ≤ q → q < min ((l % 3) * 60 + 60) 142 →
          p - (l % 3) * 60 = q - (l % 3) * 60 → p = q) ∧
        ((build_table o).getD (1 + l) []).getD (4 + (p - (l % 3) * 60)) 0 =
          (if (lines.getD l defaultLine).body.data.getD
              (2 * (p - (l % 3) * 60)) 'x' = '0' then 0
           else color_component (resolveColor o p) (lines.getD l defaultLine).ofset) := by
  refine ⟨rfl, ?_⟩
  intro o l hl p hp1 hp2
  refine ⟨by omega, fun q hq1 hq2 heq => by omega, ?_⟩
  rw [line_byte_eq o l (p - (l % 3) * 60) hl (by omega),
    show (l % 3) * 60 + (p - (l % 3) * 60) = p by omega]

/-- Witness for C3 as amended, at line 0 and position 5. -/
theorem c3_witness : (5 : Nat) - (0 % 3) * 60 < 60 :=
  (c3_layout_thirds.2 Table.empty 0 (by decide) 5 (by decide) (by decide)).1

/-- C9 counterexample: report 0 is not 65 bytes long. -/
theorem c9_counterexample : ¬ (((build_table Table.empty).getD 0 []).length = 65) := by
  decide

/-- C9 amended: every report's byte length is fixed and independent of the
override table contents: report 0 is a fixed 64-byte payload constant
across all invocations, and each of reports 1–9 consists of a 4-byte
fixed header followed by exactly 60 encoded color-channel bytes. -/
theorem c9_report_lengths (o : Table) :
    ((build_table o).getD 0 []).length = 64 ∧
    (build_table o).getD 0 [] = decode_hex HEADER0 ∧
    ∀ l, l < 9 →
      ((build_table o).getD (1 + l) []).length = 64 ∧
      (build_table o).getD (1 + l) [] =
        decode_hex (lines.getD l defaultLine).header ++ lineBody o l ∧
      (decode_hex (lines.getD l defaultLine).header).length = 4 ∧
      (lineBody o l).length = 60 := by
  refine ⟨rfl, rfl, ?_⟩
  intro l hl
  have hrep : (build_table o).getD (1 + l) [] =
      decode_hex (lines.getD l defaultLine).header ++ lineBody o l := by
    unfold build_table
    rw [show (1 + l) = l + 1 by omega, List.getD_cons_succ,
      getD_range_map _ _ _ _ (show l < lines.length from hl)]
  have hbody : (lineBody o l).length = 60 := by
    unfold lineBody
    rw [List.length_map, List.length_range, bodyCount l hl]
  refine ⟨?_, hrep, header_length l hl, hbody⟩
  rw [hrep, List.length_append, header_length l hl, hbody]

/-- Witness for C9 as amended, at line 2. -/
theorem c9_witness : ((build_table Table.empty).getD (1 + 2) []).length = 64 :=
  ((c9_report_lengths Table.empty).2.2 2 (by decide)).1

/-- C10 counterexample: `get_keys` does not return 143 entries. -/
theorem c10_counterexample : ¬ (get_keys.length = 143) := by decide

/-- C10 amended: the key layout has 142 entries, and for every line index
`l < 9` and body byte position `i < 60` whose mask byte is non-zero, the
layout index `(l % 3) * 60 + i` computed by `build_table` is strictly
below the layout length, so the layout indexing can never go out of
bounds, whatever the override table contains. -/
theorem c10_index_in_bounds :
    get_keys.length = 142 ∧
    ∀ l, l < 9 → ∀ i, i < 60 →
      (lines.getD l defaultLine).body.data.getD (2 * i) 'x' ≠ '0' →
      (l % 3) * 60 + i < get_keys.length :=
  ⟨rfl, by decide⟩

/-- Witness for C10 as amended, at line 8 (third 2) and byte 21, the
deepest masked position: layout index 141 is in bounds. -/
theorem c10_witness : (8 % 3) * 60 + 21 < get_keys.length :=
  c10_index_in_bounds.2 8 (by decide) 21 (by decide) (by decide)

/-- C4 counterexample: on a device whose descriptor tree has no OUT
endpoint, the resolver does return `none`, but the per-report
`find_writable_endpoint(..).unwrap()` in `main` panics (modelled as the
`none` run result): the run aborts wholesale instead of skipping the
current report and attempting the next one. -/
theorem c4_counterexample :
    find_writable_endpoint noOutDev TransferType.interrupt = none ∧
    send_reports noOutDev [[1], [2]] = none ∧
    lfos_run (some [noOutDev]) [[1], [2]] = none := by decide

/-- C4 amended: a descriptor tree with no OUT endpoint of the requested
transfer type makes the resolver return `none` without crashing; when
that happens the executor unwraps the missing endpoint and panics,
aborting the whole run, so no subsequent report is attempted. -/
theorem c4_resolver_none_executor_panics :
    (∀ (dev : UsbDevice) (tt : TransferType),
      hasWritableOut dev tt = false → find_writable_endpoint dev tt = none) ∧
    (∀ (dev : UsbDevice) (line : List Nat) (rest : List (List Nat)),
      find_writable_endpoint dev TransferType.interrupt = none →
      send_reports dev (line :: rest) = none) := by
  constructor
  · intro dev tt h
    unfold hasWritableOut at h
    rw [List.any_eq_false] at h
    unfold find_writable_endpoint
    apply firstSome_eq_none
    intro cfg hcfg
    have hc := h cfg hcfg
    cases cfg with
    | none => rfl
    | some config_desc =>
      have hc2 : config_desc.interfaces.any (fun iface =>
          iface.descriptors.any (fun interface_desc =>
            interface_desc.endpoint_descriptors.any (fun e =>
              decide (e.direction = Direction.dirOut ∧
                e.transfer_type = tt)))) = false := by
        simpa using hc
      rw [List.any_eq_false] at hc2
      apply firstSome_eq_none
      intro iface hiface
      have hc3 : iface.descriptors.any (fun interface_desc =>
          interface_desc.endpoint_descriptors.any (fun e =>
            decide (e.direction = Direction.dirOut ∧
              e.transfer_type = tt))) = false := by
        simpa using hc2 iface hiface
      rw [List.any_eq_false] at hc3
      apply firstSome_eq_none
      intro interface_desc hid
      have hc4 : interface_desc.endpoint_descriptors.any (fun e =>
          decide (e.direction = Direction.dirOut ∧
            e.transfer_type = tt)) = false := by
        simpa using hc3 interface_desc hid
      have hfind : interface_desc.endpoint_descriptors.find? (fun e =>
          decide (e.direction = Direction.dirOut ∧
            e.transfer_type = tt)) = none :=
        List.find?_eq_none.mpr (List.any_eq_false.mp hc4)
      rw [hfind]
  · intro dev line rest h
    unfold send_reports
    rw [h]

/-- Witness for C4 as amended: the no-OUT-endpoint device makes the bulk
search fail, and a one-report run on it already aborts. -/
theorem c4_witness :
    find_writable_endpoint noOutDev TransferType.bulk = none ∧
    send_reports noOutDev [[0]] = none :=
  ⟨c4_resolver_none_executor_panics.1 noOutDev TransferType.bulk (by decide),
   c4_resolver_none_executor_panics.2 noOutDev [0] []
     (c4_resolver_none_executor_panics.1 noOutDev TransferType.interrupt (by decide))⟩

/-- C5: on flag-free input, `try_parse_cmd` returns the error value
exactly when the token sequence after the program name has an odd pair
structure or contains a color token that `u32` base-16 parsing rejects;
on every other input it returns `ok` with an override table.  Both
failures are values, never panics (every function here is total). -/
theorem c5_error_iff_bad_input :
    ∀ args : List String, args ≠ [] →
    (∀ a ∈ args, a ≠ "--help" ∧ a ≠ "--version") →
    ((try_parse_cmd args).isErr = true ↔
      ((args.drop 1).length % 2 = 1 ∨ hasBadColor (args.drop 1) = true)) ∧
    ((try_parse_cmd args).isOk = true ↔
      ¬((args.drop 1).length % 2 = 1 ∨ hasBadColor (args.drop 1) = true)) := by
  intro args hne hflag
  have hfind : args.find? (fun a => a == "--help" || a == "--version") = none := by
    rw [List.find?_eq_none]
    intro x hx
    have hfl := hflag x hx
    simp [hfl.1, hfl.2]
  have hlen : args.length = (args.drop 1).length + 1 := by
    cases args with
    | nil => exact absurd rfl hne
    | cons a rest => simp
  unfold try_parse_cmd
  rw [hfind]
  by_cases hodd : args.length % 2 ≠ 1
  · rw [if_pos hodd]
    constructor
    · constructor
      · intro _
        exact Or.inl (by omega)
      · intro _
        rfl
    · constructor
      · intro hfalse
        exact absurd hfalse (by simp [CmdResult.isOk])
      · intro hcon
        exact absurd (Or.inl (show (args.drop 1).length % 2 = 1 by omega)) hcon
  · rw [if_neg hodd]
    have heven : ¬ ((args.drop 1).length % 2 = 1) := by omega
    cases hp : parsePairs (args.drop 1) Table.empty with
    | ok t =>
      have hok : parseOk (parsePairs (args.drop 1) Table.empty) = true := by
        rw [hp]
        rfl
      rw [parsePairs_ok] at hok
      have hbad : hasBadColor (args.drop 1) = false := by
        cases hb : hasBadColor (args.drop 1) with
        | false => rfl
        | true =>
          rw [hb] at hok
          exact absurd hok (by decide)
      have hnot : ¬((args.drop 1).length % 2 = 1 ∨ hasBadColor (args.drop 1) = true) := by
        rintro (h | h)
        · exact heven h
        · rw [hbad] at h
          exact Bool.false_ne_true h
      exact ⟨iff_of_false (fun h => Bool.false_ne_true h) hnot, iff_of_true rfl hnot⟩
    | error e =>
      have hok : parseOk (parsePairs (args.drop 1) Table.empty) = false := by
        rw [hp]
        rfl
      rw [parsePairs_ok] at hok
      have hbad : hasBadColor (args.drop 1) = true := by
        cases hb : hasBadColor (args.drop 1) with
        | true => rfl
        | false =>
          rw [hb] at hok
          exact absurd hok (by decide)
      exact ⟨iff_of_true rfl (Or.inr hbad),
        iff_of_false (fun h => Bool.false_ne_true h) (not_not_intro (Or.inr hbad))⟩

/-- Witness for C5: an odd-structured input errors, and a malformed color
token errors, both as values. -/
theorem c5_witness :
    (try_parse_cmd ["lfos", "p1", "ff0000", "p2"]).isErr = true ∧
    (try_parse_cmd ["lfos", "pkeys", "zz"]).isErr = true :=
  ⟨(c5_error_iff_bad_input ["lfos", "p1", "ff0000", "p2"] (by decide) (by decide)).1.mpr
      (Or.inl (by decide)),
   (c5_error_iff_bad_input ["lfos", "pkeys", "zz"] (by decide) (by decide)).1.mpr
      (Or.inr (by decide))⟩

/-- Expansion of a group name is the group's member list. -/
lemma expansion_group (name : String) (values : List String)
    (h : groupsGet name = some values) : expansion name = values := by
  unfold expansion
  rw [h]

/-- Expansion of a non-group name is the singleton of the name. -/
lemma expansion_single (name : String) (h : groupsGet name = none) :
    expansion name = [name] := by
  unfold expansion
  rw [h]

/-- C6: override pairs are applied left-to-right, later pairs strictly
overriding earlier ones for the same key: resolving
`k ff0000 k 00ff00` yields `k → 0x00ff00`; a pair whose name matches a
group applies its color to every member of the group, overwriting any
earlier mapping of those keys; a pair whose name is no group overwrites
that single key. -/
theorem c6_later_pairs_override :
    (try_parse_cmd ["lfos", "k", "ff0000", "k", "00ff00"]).tableAt "k" = some 0x00ff00 ∧
    (∀ (t : Table) (name : String) (values : List String) (color : Nat),
      groupsGet name = some values →
      ∀ m ∈ values, applyPair t name color m = some color) ∧
    (∀ (t : Table) (key : String) (color : Nat),
      groupsGet key = none → applyPair t key color key = some color) := by
  refine ⟨by decide, ?_, ?_⟩
  · intro t name values color hg m hm
    rw [applyPair_eq_fold, foldl_insert_lookup, expansion_group name values hg,
      if_pos hm]
  · intro t key color hg
    rw [applyPair_eq_fold, foldl_insert_lookup, expansion_single key hg]
    simp

/-- Witness for C6: a group pair overwrites each member, and a single-key
pair overwrites its key. -/
theorem c6_witness :
    applyPair Table.empty "pkeys" 5 "p3" = some 5 ∧
    applyPair Table.empty "esc" 7 "esc" = some 7 :=
  ⟨c6_later_pairs_override.2.1 Table.empty "pkeys" ["p1", "p2", "p3", "p4", "p5"] 5
      (by decide) "p3" (by decide),
   c6_later_pairs_override.2.2 Table.empty "esc" 7 (by decide)⟩

/-- C7: for every non-sentinel layout position whose key has an explicit
24-bit override color, taking the byte at the key's fixed body position
from the three line reports of its third and recombining them with the
channel offsets 16, 8 and 0 reconstructs the exact input color; and
exchanging two override pairs whose expanded key sets are disjoint yields
the same final override table. -/
theorem c7_roundtrip_and_disjoint_commute :
    (∀ (o : Table) (p c : Nat), p < 142 →
      get_keys.getD p "" ≠ "????" →
      o (get_keys.getD p "") = some c →
      c < 16777216 →
      extract_color o p = c) ∧
    (∀ (t : Table) (n1 n2 : String) (c1 c2 : Nat),
      (∀ x ∈ expansion n1, x ∉ expansion n2) →
      applyPair (applyPair t n1 c1) n2 c2 = applyPair (applyPair t n2 c2) n1 c1) := by
  constructor
  · intro o p c hp hsent hov hc
    have ht : p / 60 < 3 := by omega
    have hi : p % 60 < 60 := by omega
    have hmask := sentinel_mask p hp hsent
    have hs := line_structure (p / 60) ht
    unfold extract_color
    rw [line_byte_eq o (p / 60) (p % 60) (by omega) hi,
      show 4 + p / 60 = 1 + (p / 60 + 3) by omega,
      line_byte_eq o (p / 60 + 3) (p % 60) (by omega) hi,
      show 7 + p / 60 = 1 + (p / 60 + 6) by omega,
      line_byte_eq o (p / 60 + 6) (p % 60) (by omega) hi,
      ← hs.1, ← hs.2.1, if_neg hmask, if_neg hmask, if_neg hmask,
      show (p / 60) % 3 = p / 60 by omega,
      show (p / 60 + 3) % 3 = p / 60 by omega,
      show (p / 60 + 6) % 3 = p / 60 by omega,
      show p / 60 * 60 + p % 60 = p by omega,
      hs.2.2.1, hs.2.2.2.1, hs.2.2.2.2]
    have hres : resolveColor o p = c := by
      unfold resolveColor
      rw [hov]
    rw [hres]
    unfold color_component
    simp only [Nat.shiftRight_eq_div_pow]
    norm_num
    omega
  · intro t n1 n2 c1 c2 hdisj
    rw [applyPair_eq_fold, applyPair_eq_fold, applyPair_eq_fold, applyPair_eq_fold]
    funext x
    simp only [foldl_insert_lookup]
    by_cases h1 : x ∈ expansion n1
    · have h2 : x ∉ expansion n2 := hdisj x h1
      simp [h1, h2]
    · by_cases h2 : x ∈ expansion n2 <;> simp [h1, h2]

/-- Witness for C7: the override of `esc` (position 0) round-trips, and
the disjoint groups `pkeys` and `arrows` commute. -/
theorem c7_witness :
    extract_color escOverride 0 = 11259375 ∧
    applyPair (applyPair Table.empty "pkeys" 1) "arrows" 2 =
      applyPair (applyPair Table.empty "arrows" 2) "pkeys" 1 :=
  ⟨c7_roundtrip_and_disjoint_commute.1 escOverride 0 11259375 (by decide) (by decide)
      (by decide) (by decide),
   c7_roundtrip_and_disjoint_commute.2 Table.empty "pkeys" "arrows" 1 2 (by decide)⟩

/-- Unfolding equation of the `open_device` scan at a cons cell. -/
lemma open_device_scan_cons (d : UsbDevice) (rest : List UsbDevice) (vid pid : Nat) :
    open_device_scan (d :: rest) vid pid =
      (match d.device_descriptor with
       | none => open_device_scan rest vid pid
       | some (v, p) =>
         if v = vid ∧ p = pid then
           (if d.opens then some d else open_device_scan rest vid pid)
         else open_device_scan rest vid pid) := rfl

/-- C8: the device locator never crashes: an enumeration error yields
`none`; a device whose descriptor read fails is skipped; a non-matching
device is skipped; a matching device whose open fails is skipped without
ending the scan; the first matching device that opens is returned; and
when the locator yields `none` the whole run completes as a silent no-op
with no transfer attempted. -/
theorem c8_device_locator_total :
    (∀ vid pid : Nat, open_device none vid pid = none) ∧
    (∀ (d : UsbDevice) (rest : List UsbDevice) (vid pid : Nat),
      d.device_descriptor = none →
      open_device (some (d :: rest)) vid pid = open_device (some rest) vid pid) ∧
    (∀ (d : UsbDevice) (rest : List UsbDevice) (vid pid v p : Nat),
      d.device_descriptor = some (v, p) → ¬(v = vid ∧ p = pid) →
      open_device (some (d :: rest)) vid pid = open_device (some rest) vid pid) ∧
    (∀ (d : UsbDevice) (rest : List UsbDevice) (vid pid : Nat),
      d.device_descriptor = some (vid, pid) → d.opens = false →
      open_device (some (d :: rest)) vid pid = open_device (some rest) vid pid) ∧
    (∀ (d : UsbDevice) (rest : List UsbDevice) (vid pid : Nat),
      d.device_descriptor = some (vid, pid) → d.opens = true →
      open_device (some (d :: rest)) vid pid = some d) ∧
    (∀ (devices : Option (List UsbDevice)) (table : List (List Nat)),
      open_device devices 0x03f0 0x1f41 = none →
      lfos_run devices table = some []) := by
  refine ⟨fun vid pid => rfl, ?_, ?_, ?_, ?_, ?_⟩
  · intro d rest vid pid h
    show open_device_scan (d :: rest) vid pid = open_device_scan rest vid pid
    rw [open_device_scan_cons, h]
  · intro d rest vid pid v p h hne
    show open_device_scan (d :: rest) vid pid = open_device_scan rest vid pid
    simp only [open_device_scan_cons, h]
    rw [if_neg hne]
  · intro d rest vid pid h hopen
    show open_device_scan (d :: rest) vid pid = open_device_scan rest vid pid
    simp [open_device_scan_cons, h, hopen]
  · intro d rest vid pid h hopen
    show open_device_scan (d :: rest) vid pid = some d
    simp [open_device_scan_cons, h, hopen]
  · intro devices table h
    unfold lfos_run
    rw [h]

/-- Witness for C8: a descriptor-read failure is skipped, and a run with
no device list is a silent no-op. -/
theorem c8_witness :
    open_device (some [descFailDev]) 3 4 = open_device (some ([] : List UsbDevice)) 3 4 ∧
    lfos_run none [[1]] = some [] :=
  ⟨c8_device_locator_total.2.1 descFailDev [] 3 4 rfl,
   c8_device_locator_total.2.2.2.2.2 none [[1]] (c8_device_locator_total.1 0x03f0 0x1f41)⟩

end LFOS
